import Mathlib

/-!
Verification development for the D-Bo repository: a shallow embedding of
the frontend session handling (src/frontend, src/unnamed) and of the
session & credential lifecycle engine described by the repository's
backend design documents, together with theorems settling the frozen
claims about them.

The backend of the repository is present only as design documents
(src/backend/info, src/backend/documentation); its engine is therefore
modelled here from the specification, definition by definition, each
marked `Modelled from the spec`.  Time is measured in whole minutes as
a `Nat`.
-/

namespace DBo

/-! ## Frontend: browser session storage

`sessionStorage` is a string-keyed string store.  `getItem` returns
`none` when the key is absent (JavaScript `null`); `setItem` replaces
any previous binding of the key.
-/

/-- Browser `sessionStorage` contents: an association list of key/value
pairs, most recent binding first. -/
def SessionState : Type := List (String × String)

/-- Embedding of `sessionStorage.getItem(k)`: the value bound to `k`,
or `none` when the entry is absent. -/
def getItem (s : SessionState) (k : String) : Option String :=
  (List.find? (fun e => e.1 = k) s).map (fun e => e.2)

/-- Embedding of `sessionStorage.setItem(k, v)`: replaces any previous
binding of `k` with `v`. -/
def setItem (s : SessionState) (k v : String) : SessionState :=
  (k, v) :: List.filter (fun e => decide (e.1 ≠ k)) s

/-- Embedding of the `AccountInfo` interface of the auth loader module
(src/unnamed/part_000). -/
structure AccountInfo where
  username : String
  user_id : String
  display_name : String
deriving DecidableEq, Repr

/-- Result of a react-router loader: either a thrown redirect to a path,
or the loaded account data. -/
inductive LoaderResult where
  | redirectTo (path : String)
  | account (a : AccountInfo)
deriving DecidableEq, Repr

/-- Embedding of `authLoader` (src/unnamed/part_000): reads the `token`
entry of session storage; `if (!token) throw redirect('/welcome')` —
in JavaScript both `null` (absent entry) and the empty string are
falsy — otherwise returns the fixed `AccountInfo` literal, making no
backend request. -/
def authLoader (s : SessionState) : LoaderResult :=
  match getItem s "token" with
  | none => .redirectTo "/welcome"
  | some t =>
      if t = "" then .redirectTo "/welcome"
      else .account { username := "test_user", user_id := "123", display_name := "test user" }

/-- State a page interaction acts on: the session storage plus the route
the router currently shows. -/
structure NavState where
  session : SessionState
  route : String

/-- Embedding of the `Log in` button handler of `WelcomePage`
(src/frontend/src/pages/welcome.tsx, lines 9-13):
`sessionStorage.setItem('token', '123'); navigate('/')`.  It takes no
identifier or password input: it is a function of the page state alone. -/
def welcomeLoginClick (st : NavState) : NavState :=
  { session := setItem st.session "token" "123", route := "/" }

/-! ## Backend: data model

Modelled from the spec (section 3, DATA MODEL) and the collection
declarations in src/backend/info/COLLECTIONS.md.  Only the session and
credential fields the lifecycle engine reads are embedded (gameplay and
profile fields are out of scope).
-/

/-- Modelled from the spec: the external `Hasher` capability —
`hash(plaintext) -> digest`, `verify(plaintext, digest) -> bool`. -/
structure Hasher where
  hash : String → String
  verify : String → String → Bool

/-- Modelled from the spec: access tokens logically expire 15 minutes
after issuance. -/
def accessTokenLifetimeMinutes : Nat := 15

/-- Modelled from the spec: confirmation tokens logically expire 15
minutes after creation. -/
def confirmationTokenLifetimeMinutes : Nat := 15

/-- Modelled from the spec: refresh tokens logically expire 30 days
(43200 minutes) after creation. -/
def refreshTokenLifetimeMinutes : Nat := 43200

/-- Modelled from the spec: undo tokens logically expire 24 hours
(1440 minutes) after creation. -/
def undoTokenLifetimeMinutes : Nat := 1440

/-- Modelled from the spec: the `Player` document — identity,
credential digests (current plus a most-recent-first history of
capacity 4), pending email change, session invalidation cutoff, and
lockout counters. -/
structure Player where
  player_id : String
  username : String
  email : String
  password : String
  confirmed : Bool
  proposed_email : Option String
  last_password_digests : List String
  session_valid_after : Nat
  failed_logins : Nat
  locked_until : Option Nat
deriving DecidableEq, Repr

/-- Modelled from the spec: the transient signed claim set of an access
token — `{player_id, issued_at}`. -/
structure AccessClaims where
  player_id : String
  issued_at : Nat
deriving DecidableEq, Repr

/-- Modelled from the spec: the authentication failure taxonomy of
section 7 (codes MAT, BAT, EAT, PAT, PNF, CNS, NPC, BCC, ERT, and
refresh-token revocation). -/
inductive AuthFailure where
  | MissingToken
  | BadToken
  | ExpiredToken
  | PrematureToken
  | PlayerNotFound
  | CookieNotSet
  | NonParseableCookie
  | BadCookieCredentials
  | ExpiredRefreshToken
  | RefreshRevoked
deriving DecidableEq, Repr

/-- Modelled from the spec: the credential kind an undo token is scoped
to (`password` or `email`). -/
inductive CredentialKind where
  | password
  | email
deriving DecidableEq, Repr

/-- Modelled from the spec: a persistent `ConfirmationToken` — id,
player id, created-at. -/
structure ConfirmationToken where
  token_id : String
  player_id : String
  created : Nat
deriving DecidableEq, Repr

/-- Modelled from the spec: a persistent `RefreshToken` — id, player
id, secret digest, created-at, revoked flag. -/
structure RefreshToken where
  token_id : String
  player_id : String
  secret : String
  created : Nat
  revoked : Bool
deriving DecidableEq, Repr

/-- Modelled from the spec: a persistent `UndoToken` — id, player id,
credential kind, created-at. -/
structure UndoToken where
  token_id : String
  player_id : String
  kind : CredentialKind
  created : Nat
deriving DecidableEq, Repr

/-- Modelled from the spec: failure taxonomy of the credential-change
workflows — missing document (404), expired persistent token (410),
conflict with current state (409), token of the wrong credential kind,
and the 5-generation password-reuse rejection. -/
inductive WorkflowError where
  | NotFound
  | Gone
  | Conflict
  | KindMismatch
  | PasswordReused
deriving DecidableEq, Repr

/-- Modelled from the spec: the durable document store, holding the
player records and the three persistent token collections. -/
structure Store where
  players : List Player
  confirmationTokens : List ConfirmationToken
  refreshTokens : List RefreshToken
  undoTokens : List UndoToken
deriving DecidableEq, Repr

/-- Modelled from the spec: keyed lookup of a player document by its
unique `player_id`. -/
def findPlayer (players : List Player) (pid : String) : Option Player :=
  players.find? (fun p => p.player_id = pid)

/-! ## Backend: LockoutGuard -/

/-- Modelled from the spec (section 4.1): a failure increments
`failed_logins`; on reaching 5, lock for 15 minutes; each further
consecutive failure (the Nth, N ≥ 5) locks for `(N-4)*15` minutes
measured from the moment of that failure. -/
def recordFailure (now : Nat) (p : Player) : Player :=
  let n := p.failed_logins + 1
  { p with
      failed_logins := n,
      locked_until := if 5 ≤ n then some (now + (n - 4) * 15) else p.locked_until }

/-- Modelled from the spec (section 4.1): a successful login resets
`failed_logins` to 0 and clears `locked_until`. -/
def recordSuccess (p : Player) : Player :=
  { p with failed_logins := 0, locked_until := none }

/-- Modelled from the spec (section 4.1): `isLocked(player)` returns
the unlock time while a lock window is active, and nothing once it has
passed. -/
def isLocked (now : Nat) (p : Player) : Option Nat :=
  match p.locked_until with
  | none => none
  | some u => if now < u then some u else none

/-- A sequence of consecutive failed logins, one `recordFailure` per
attempt time, applied in order. -/
def recordFailures (ts : List Nat) (p : Player) : Player :=
  ts.foldl (fun q t => recordFailure t q) p

/-! ## Backend: TokenCodec and SessionAuthenticator

The signature scheme of the token codec is cryptographic and is kept
abstract: `validateAccess` is parameterised over the codec's
`verify : String → Option AccessClaims`, which returns the signed
claims exactly when the token text is parseable and its signature
valid.
-/

/-- Characters of one string forming a leading segment of another;
used to embed the `"Bearer "` prefix test on the `Authorization`
header. -/
def leadsChars (p cs : List Char) : Bool :=
  match p, cs with
  | [], _ => true
  | _ :: _, [] => false
  | x :: xs, y :: ys => x = y && leadsChars xs ys

/-- Modelled from the spec (section 6, bearer convention): absence of
the header, absence of the `"Bearer "` marker, or an empty remainder
each yield no token text. -/
def parseBearer (header : Option String) : Option String :=
  match header with
  | none => none
  | some h =>
      if leadsChars "Bearer ".data h.data then
        match h.data.drop 7 with
        | [] => none
        | rest => some (String.mk rest)
      else none

/-- Modelled from the spec (section 4.2):
`validateAccess(token) -> player_id | AuthFailure`, failing
`MissingToken` on an absent or malformed bearer header, `BadToken` on
an unparseable or badly signed token, `ExpiredToken` past the
15-minute window, `PrematureToken` when `issued_at` precedes the
player's `session_valid_after`, and `PlayerNotFound` when the claimed
player no longer exists (the premature check reads the player record,
so the record is fetched for both of the last two checks). -/
def validateAccess (verify : String → Option AccessClaims) (players : List Player)
    (now : Nat) (header : Option String) : Except AuthFailure String :=
  match parseBearer header with
  | none => .error .MissingToken
  | some tok =>
      match verify tok with
      | none => .error .BadToken
      | some c =>
          if c.issued_at + accessTokenLifetimeMinutes ≤ now then .error .ExpiredToken
          else
            match findPlayer players c.player_id with
            | none => .error .PlayerNotFound
            | some p =>
                if c.issued_at < p.session_valid_after then .error .PrematureToken
                else .ok c.player_id

/-! ## Backend: RefreshTokenLedger -/

/-- Splitting a character list at every occurrence of a separator;
used to embed splitting the refresh cookie value at the colon. -/
def splitOnChar (c : Char) (cs : List Char) : List (List Char) :=
  match cs with
  | [] => [[]]
  | x :: xs =>
      let rest := splitOnChar c xs
      if x = c then [] :: rest
      else
        match rest with
        | [] => [[x]]
        | r :: rs => (x :: r) :: rs

/-- Modelled from the spec (section 6): the refresh cookie value has
the form `id:secret` — splitting at the colon must yield exactly two
parts, anything else is unparseable. -/
def parseCookie (cookie : String) : Option (String × String) :=
  match splitOnChar ':' cookie.data with
  | [i, s] => some (String.mk i, String.mk s)
  | _ => none

/-- Modelled from the spec: keyed lookup of a refresh token by its
unique `token_id`. -/
def findRefreshToken (l : List RefreshToken) (id : String) : Option RefreshToken :=
  l.find? (fun t => t.token_id = id)

/-- Modelled from the spec: deletion of the refresh-token document with
the given unique `token_id`. -/
def removeToken (id : String) (l : List RefreshToken) : List RefreshToken :=
  l.filter (fun u => decide (u.token_id ≠ id))

/-- Modelled from the spec: the live refresh tokens of a player — those
neither revoked nor past the 30-day logical expiry. -/
def liveTokens (now : Nat) (l : List RefreshToken) (pid : String) : List RefreshToken :=
  l.filter (fun t =>
    decide (t.player_id = pid ∧ t.revoked = false ∧ now < t.created + refreshTokenLifetimeMinutes))

/-- The live token of the player with the smallest `created` time, if
the player has any live token. -/
def oldestLive (now : Nat) (l : List RefreshToken) (pid : String) : Option RefreshToken :=
  match liveTokens now l pid with
  | [] => none
  | t :: ts => some (ts.foldl (fun a u => if u.created < a.created then u else a) t)

/-- Modelled from the spec (section 3, RefreshToken): issuing a refresh
token for a player; at most 3 live tokens per player, so when the
player already has 3 live ones the oldest live token is evicted before
the new document is inserted. -/
def issueRefresh (now : Nat) (pid id secretDigest : String) (l : List RefreshToken) :
    List RefreshToken :=
  let newTok : RefreshToken :=
    { token_id := id, player_id := pid, secret := secretDigest, created := now, revoked := false }
  match oldestLive now l pid with
  | none => newTok :: l
  | some t =>
      if 3 ≤ (liveTokens now l pid).length then newTok :: removeToken t.token_id l
      else newTok :: l

/-- Modelled from the spec: revoking a single refresh token by id. -/
def revokeToken (id : String) (l : List RefreshToken) : List RefreshToken :=
  l.map (fun t => if t.token_id = id then { t with revoked := true } else t)

/-- Modelled from the spec: revoking every refresh token of a player
(session invalidation). -/
def revokePlayerTokens (pid : String) (l : List RefreshToken) : List RefreshToken :=
  l.map (fun t => if t.player_id = pid then { t with revoked := true } else t)

/-- Modelled from the spec (section 4.2, refresh): rotation — when the
presented token id names a live (unrevoked, unexpired) token, delete it
and insert a fresh one for the same player; otherwise nothing
rotates. -/
def rotateRefresh (now : Nat) (oldId newId secretDigest : String) (l : List RefreshToken) :
    List RefreshToken :=
  match findRefreshToken l oldId with
  | none => l
  | some t =>
      if t.revoked = false ∧ now < t.created + refreshTokenLifetimeMinutes then
        { token_id := newId, player_id := t.player_id, secret := secretDigest,
          created := now, revoked := false } :: removeToken t.token_id l
      else l

/-- Modelled from the spec: the operations the RefreshTokenLedger
performs on its collection — issuance (with eviction), single
revocation, whole-player revocation, and rotation. -/
inductive LedgerOp where
  | issue (pid id secretDigest : String)
  | revoke (id : String)
  | revokeAll (pid : String)
  | rotate (oldId newId secretDigest : String)

/-- One ledger operation applied at a given time. -/
def applyOp (now : Nat) (op : LedgerOp) (l : List RefreshToken) : List RefreshToken :=
  match op with
  | .issue pid id secretDigest => issueRefresh now pid id secretDigest l
  | .revoke id => revokeToken id l
  | .revokeAll pid => revokePlayerTokens pid l
  | .rotate oldId newId secretDigest => rotateRefresh now oldId newId secretDigest l

/-- A timed sequence of ledger operations applied in order. -/
def applyOps (ops : List (Nat × LedgerOp)) (l : List RefreshToken) : List RefreshToken :=
  ops.foldl (fun acc o => applyOp o.1 o.2 acc) l

/-- The time of the last operation of a timed sequence, or the starting
time when the sequence is empty. -/
def lastTime (t : Nat) (ops : List (Nat × LedgerOp)) : Nat :=
  ops.foldl (fun _ o => o.1) t

/-- The per-player bound of the ledger: no player has more than 3 live
refresh tokens. -/
def LiveBound (now : Nat) (l : List RefreshToken) : Prop :=
  ∀ pid, (liveTokens now l pid).length ≤ 3

/-- Result of a successful refresh: the fresh access claims, the new
cookie pair, and the rotated ledger. -/
structure RefreshSuccess where
  access : AccessClaims
  cookie_id : String
  cookie_secret : String
  ledger : List RefreshToken
deriving DecidableEq, Repr

/-- Modelled from the spec (section 4.2):
`refresh(cookie) -> {access, refresh_cookie} | AuthFailure`; the cookie
must parse as `id:secret`; an unknown id yields
`BadCookieCredentials`, a token past the 30-day logical expiry
`ExpiredRefreshToken`, a secret digest mismatch
`BadCookieCredentials`, a revoked token `RefreshRevoked`, a missing
player `PlayerNotFound`; on success the used token is deleted and a
fresh one issued (rotation) together with fresh access claims. -/
def refresh (hasher : Hasher) (players : List Player) (l : List RefreshToken)
    (now : Nat) (newId newSecret : String) (cookie : Option String) :
    Except AuthFailure RefreshSuccess :=
  match cookie with
  | none => .error .CookieNotSet
  | some cv =>
      match parseCookie cv with
      | none => .error .NonParseableCookie
      | some (id, secret) =>
          match findRefreshToken l id with
          | none => .error .BadCookieCredentials
          | some t =>
              if t.created + refreshTokenLifetimeMinutes ≤ now then .error .ExpiredRefreshToken
              else if hasher.verify secret t.secret = false then .error .BadCookieCredentials
              else if t.revoked then .error .RefreshRevoked
              else
                match findPlayer players t.player_id with
                | none => .error .PlayerNotFound
                | some _ =>
                    .ok { access := { player_id := t.player_id, issued_at := now },
                          cookie_id := newId,
                          cookie_secret := newSecret,
                          ledger :=
                            { token_id := newId, player_id := t.player_id,
                              secret := hasher.hash newSecret, created := now,
                              revoked := false } :: removeToken t.token_id l }

/-! ## Backend: CredentialChangeManager -/

/-- Modelled from the spec (section 4.3):
`changePassword(player, newPassword)` — reject when the new password
digest-equals any of the current plus last 4 stored digests
(5-generation uniqueness); otherwise update the digest, push the old
current digest to the front of the bounded history (capacity 4,
evicting the oldest beyond it) and invalidate sessions by bumping
`session_valid_after` to now. -/
def changePassword (hasher : Hasher) (now : Nat) (p : Player) (newPassword : String) :
    Except WorkflowError Player :=
  if (p.password :: p.last_password_digests).any (fun d => hasher.verify newPassword d) then
    .error .PasswordReused
  else
    .ok { p with
            password := hasher.hash newPassword,
            last_password_digests := (p.password :: p.last_password_digests).take 4,
            session_valid_after := now }

/-- Modelled from the spec (section 4.3): `confirmEmailChange(tokenId)`
— the confirmation token must exist, be unexpired (15 minutes), and
belong to a player with a non-null `proposed_email`; on success the
email becomes `proposed_email`, `proposed_email` is cleared, the
ConfirmationToken is deleted, and sessions are invalidated now (bump
`session_valid_after`, revoke the player's refresh tokens). -/
def confirmEmailChange (now : Nat) (tokenId : String) (s : Store) :
    Except WorkflowError Store :=
  match s.confirmationTokens.find? (fun t => t.token_id = tokenId) with
  | none => .error .NotFound
  | some t =>
      if t.created + confirmationTokenLifetimeMinutes ≤ now then .error .Gone
      else
        match findPlayer s.players t.player_id with
        | none => .error .NotFound
        | some p =>
            match p.proposed_email with
            | none => .error .Conflict
            | some e =>
                .ok { players := s.players.map (fun q =>
                        if q.player_id = t.player_id then
                          { q with email := e, proposed_email := none,
                                   session_valid_after := now }
                        else q),
                      confirmationTokens :=
                        s.confirmationTokens.filter (fun u => decide (u.token_id ≠ tokenId)),
                      refreshTokens := revokePlayerTokens t.player_id s.refreshTokens,
                      undoTokens := s.undoTokens }

/-- Modelled from the spec (section 4.3): `undoEmailChange(undoTokenId)`
— the undo token must exist and be of kind `email`; when the change has
already been confirmed (`proposed_email` cleared) the call must fail
with a conflict, not success — the spec states this unconditionally,
so the conflict check dominates the 24-hour expiry check; otherwise an
expired token is gone, and on success `proposed_email` is cleared, the
player's ConfirmationToken deleted, and the UndoToken consumed. -/
def undoEmailChange (now : Nat) (undoTokenId : String) (s : Store) :
    Except WorkflowError Store :=
  match s.undoTokens.find? (fun t => t.token_id = undoTokenId) with
  | none => .error .NotFound
  | some t =>
      if t.kind ≠ .email then .error .KindMismatch
      else
        match findPlayer s.players t.player_id with
        | none => .error .NotFound
        | some p =>
            match p.proposed_email with
            | none => .error .Conflict
            | some _ =>
                if t.created + undoTokenLifetimeMinutes ≤ now then .error .Gone
                else
                  .ok { players := s.players.map (fun q =>
                          if q.player_id = t.player_id then { q with proposed_email := none }
                          else q),
                        confirmationTokens :=
                          s.confirmationTokens.filter (fun u => decide (u.player_id ≠ t.player_id)),
                        refreshTokens := s.refreshTokens,
                        undoTokens :=
                          s.undoTokens.filter (fun u => decide (u.token_id ≠ undoTokenId)) }

/-! ## Demonstration instances

Concrete closed instances used by the witnesses and counterexamples of
the claim theorems below.
-/

/-- A `Hasher` instance of the external interface in which the digest
is the plaintext itself; used only to instantiate theorems at concrete
inputs. -/
def plainHasher : Hasher :=
  { hash := fun s => s, verify := fun p d => p == d }

/-- A codec verifier knowing a single signed token `tok0` carrying the
claims of player `p1` issued at time 0. -/
def demoVerify : String → Option AccessClaims :=
  fun tok => if tok = "tok0" then some { player_id := "p1", issued_at := 0 } else none

/-- A confirmed player with no pending change, no lockout and no
password history. -/
def basePlayer : Player :=
  { player_id := "p1", username := "u1", email := "a@x", password := "d0",
    confirmed := true, proposed_email := none, last_password_digests := [],
    session_valid_after := 0, failed_logins := 0, locked_until := none }

/-- A player whose password history is full (4 stored digests). -/
def historyPlayer : Player :=
  { basePlayer with password := "d4", last_password_digests := ["d3", "d2", "d1", "d0"] }

/-- A player with a pending email change from `a@x` to `b@x`. -/
def pendingPlayer : Player :=
  { basePlayer with proposed_email := some "b@x" }

/-- The demo player after its pending email change has been confirmed
at minute 1. -/
def confirmedPlayer : Player :=
  { pendingPlayer with email := "b@x", proposed_email := none, session_valid_after := 1 }

/-- A store holding a pending email change for `p1`: the player, the
confirmation token, one refresh token and the email undo token. -/
def pendingStore : Store :=
  { players := [pendingPlayer],
    confirmationTokens := [{ token_id := "c1", player_id := "p1", created := 0 }],
    refreshTokens := [{ token_id := "r1", player_id := "p1", secret := "s1",
                        created := 0, revoked := false }],
    undoTokens := [{ token_id := "u1", player_id := "p1", kind := .email, created := 0 }] }

/-- A single-token refresh ledger for `p1`. -/
def demoLedger : List RefreshToken :=
  [{ token_id := "t1", player_id := "p1", secret := "s1", created := 0, revoked := false }]

/-- A ledger in which player `p` already has three live refresh
tokens, created at times 0, 1 and 2. -/
def fullLedger : List RefreshToken :=
  [{ token_id := "a", player_id := "p", secret := "x", created := 0, revoked := false },
   { token_id := "b", player_id := "p", secret := "x", created := 1, revoked := false },
   { token_id := "c", player_id := "p", secret := "x", created := 2, revoked := false }]

/-- The store resulting from confirming the pending email change of
`pendingStore` at minute 1. -/
def confirmedStore : Store :=
  { players := [{ player_id := "p1", username := "u1", email := "b@x", password := "d0",
                  confirmed := true, proposed_email := none, last_password_digests := [],
                  session_valid_after := 1, failed_logins := 0, locked_until := none }],
    confirmationTokens := [],
    refreshTokens := [{ token_id := "r1", player_id := "p1", secret := "s1",
                        created := 0, revoked := true }],
    undoTokens := [{ token_id := "u1", player_id := "p1", kind := .email, created := 0 }] }

/-- A demonstration sequence of ledger operations: four issuances for
player `p` at minutes 0 to 3. -/
def demoOps : List (Nat × LedgerOp) :=
  [(0, .issue "p" "a" "x"), (1, .issue "p" "b" "x"),
   (2, .issue "p" "c" "x"), (3, .issue "p" "d" "x")]

/-! # Theorems -/

/-! ## Helper lemmas on keyed lookup -/

lemma findPlayer_map_update (players : List Player) (pid pid₂ : String)
    (g : Player → Player) (hg : ∀ p, (g p).player_id = p.player_id) :
    findPlayer (players.map (fun p => if p.player_id = pid then g p else p)) pid₂ =
      (findPlayer players pid₂).map (fun p => if p.player_id = pid then g p else p) := by
  unfold findPlayer
  induction players with
  | nil => rfl
  | cons q qs ih =>
      rw [List.map_cons]
      by_cases hq : q.player_id = pid₂
      · rw [List.find?_cons_of_pos, List.find?_cons_of_pos]
        · simp
        · simpa using hq
        · split <;> simp [hg, hq]
      · rw [List.find?_cons_of_neg, List.find?_cons_of_neg]
        · exact ih
        · simpa using hq
        · split <;> simp [hg, hq]

/-! ## LockoutGuard (claim C2) -/

lemma recordFailures_cons (t : Nat) (ts : List Nat) (p : Player) :
    recordFailures (t :: ts) p = recordFailures ts (recordFailure t p) := rfl

lemma recordFailures_failed (ts : List Nat) (p : Player) :
    (recordFailures ts p).failed_logins = p.failed_logins + ts.length := by
  induction ts generalizing p with
  | nil => rfl
  | cons t ts ih =>
      rw [recordFailures_cons, ih]
      simp [recordFailure]
      omega

lemma recordFailures_append_single (ts : List Nat) (t : Nat) (p : Player) :
    recordFailures (ts ++ [t]) p = recordFailure t (recordFailures ts p) := by
  simp [recordFailures, List.foldl_append]

/-- C2: starting from a player with no consecutive failures, the Nth
consecutive failed login (N = ts.length + 1 ≥ 5, happening at time t
after earlier failures at times ts) leaves the failure counter at N
and locks the account until exactly `t + (N-4)*15` — the account is
locked at a time m precisely when m is before that unlock instant. -/
theorem lockout_nth_failure (ts : List Nat) (t : Nat) (p : Player)
    (h0 : p.failed_logins = 0) (hn : 5 ≤ ts.length + 1) :
    (recordFailures (ts ++ [t]) p).failed_logins = ts.length + 1 ∧
    (recordFailures (ts ++ [t]) p).locked_until = some (t + (ts.length + 1 - 4) * 15) ∧
    ∀ m, (isLocked m (recordFailures (ts ++ [t]) p)).isSome = true ↔
      m < t + (ts.length + 1 - 4) * 15 := by
  have hq := recordFailures_failed ts p
  rw [h0, Nat.zero_add] at hq
  rw [recordFailures_append_single]
  refine ⟨?_, ?_, ?_⟩
  · simp [recordFailure, hq]
  · simp [recordFailure, hq, hn]
  · intro m
    simp only [isLocked, recordFailure, hq, if_pos hn]
    by_cases hm : m < t + (ts.length + 1 - 4) * 15
    · simp [hm]
    · simp [hm]

/-- Witness for `lockout_nth_failure`: five failures at minutes
0,1,2,3,4 leave the counter at 5 and lock the account until minute
4 + 15 = 19; at minute 10 the account is still locked. -/
theorem lockout_nth_failure_witness :
    (recordFailures ([0, 1, 2, 3] ++ [4]) basePlayer).failed_logins = 5 ∧
    (recordFailures ([0, 1, 2, 3] ++ [4]) basePlayer).locked_until = some 19 ∧
    ((isLocked 10 (recordFailures ([0, 1, 2, 3] ++ [4]) basePlayer)).isSome = true ↔
      10 < 19) := by
  have h := lockout_nth_failure [0, 1, 2, 3] 4 basePlayer rfl (by decide)
  exact ⟨h.1, h.2.1, h.2.2 10⟩

/-! ## SessionAuthenticator: access-token validation (claims C1, C8) -/

/-- C1: for a bearer header carrying a token whose signature verifies
to the claims c, validation succeeds — returning the claimed player id
— exactly when the current time is before `issued_at` plus 15 minutes,
the claimed player still exists, and `issued_at` is at or after that
player's `session_valid_after`. -/
theorem validateAccess_success_iff (verify : String → Option AccessClaims)
    (players : List Player) (now : Nat) (header : Option String)
    (tok : String) (c : AccessClaims)
    (hparse : parseBearer header = some tok) (hver : verify tok = some c) :
    validateAccess verify players now header = .ok c.player_id ↔
      (now < c.issued_at + accessTokenLifetimeMinutes ∧
        ∃ p, findPlayer players c.player_id = some p ∧ p.session_valid_after ≤ c.issued_at) := by
  unfold validateAccess
  simp only [hparse, hver]
  by_cases hexp : c.issued_at + accessTokenLifetimeMinutes ≤ now
  · rw [if_pos hexp]
    constructor
    · intro h; exact absurd h (by simp)
    · rintro ⟨hlt, -⟩; omega
  · rw [if_neg hexp]
    rcases hfp : findPlayer players c.player_id with _ | p
    · simp
    · simp only [Option.some.injEq]
      by_cases hsva : c.issued_at < p.session_valid_after
      · rw [if_pos hsva]
        constructor
        · intro h; exact absurd h (by simp)
        · rintro ⟨-, q, rfl, hle⟩
          exact absurd hle (by omega)
      · rw [if_neg hsva]
        simp only [eq_self_iff_true, true_iff]
        exact ⟨by omega, p, rfl, by omega⟩

/-- Witness for `validateAccess_success_iff`: the demo token issued at
minute 0 validates at minute 1 against the demo player. -/
theorem validateAccess_success_iff_witness :
    validateAccess demoVerify [basePlayer] 1 (some "Bearer tok0") = .ok "p1" :=
  (validateAccess_success_iff demoVerify [basePlayer] 1 (some "Bearer tok0")
      "tok0" { player_id := "p1", issued_at := 0 } (by decide) rfl).mpr
    ⟨by decide, basePlayer, rfl, by decide⟩

/-- C8: `validateAccess` returns exactly one failure kind per input,
according to the fixed chain of checks — `MissingToken` exactly on an
absent or malformed bearer header, `BadToken` exactly when the header
carries a token the codec cannot verify, `ExpiredToken` exactly when
the verified claims are past the 15-minute window, `PrematureToken`
exactly when the unexpired claims were issued before the existing
player's `session_valid_after`, and `PlayerNotFound` exactly when the
unexpired claims name a player that no longer exists. -/
theorem validateAccess_failure_taxonomy (verify : String → Option AccessClaims)
    (players : List Player) (now : Nat) (header : Option String) :
    (validateAccess verify players now header = .error .MissingToken ↔
        parseBearer header = none) ∧
    (validateAccess verify players now header = .error .BadToken ↔
        ∃ tok, parseBearer header = some tok ∧ verify tok = none) ∧
    (validateAccess verify players now header = .error .ExpiredToken ↔
        ∃ tok c, parseBearer header = some tok ∧ verify tok = some c ∧
          c.issued_at + accessTokenLifetimeMinutes ≤ now) ∧
    (validateAccess verify players now header = .error .PrematureToken ↔
        ∃ tok c p, parseBearer header = some tok ∧ verify tok = some c ∧
          now < c.issued_at + accessTokenLifetimeMinutes ∧
          findPlayer players c.player_id = some p ∧
          c.issued_at < p.session_valid_after) ∧
    (validateAccess verify players now header = .error .PlayerNotFound ↔
        ∃ tok c, parseBearer header = some tok ∧ verify tok = some c ∧
          now < c.issued_at + accessTokenLifetimeMinutes ∧
          findPlayer players c.player_id = none) := by
  rcases hp : parseBearer header with _ | tok
  · unfold validateAccess
    simp only [hp]
    refine ⟨?_, ?_, ?_, ?_, ?_⟩ <;> simp
  · rcases hv : verify tok with _ | c
    · unfold validateAccess
      simp only [hp, hv]
      refine ⟨?_, ?_, ?_, ?_, ?_⟩ <;> simp [hp, hv]
    · by_cases hexp : c.issued_at + accessTokenLifetimeMinutes ≤ now
      · unfold validateAccess
        simp only [hp, hv, if_pos hexp]
        refine ⟨?_, ?_, ?_, ?_, ?_⟩ <;> simp [hp, hv] <;> omega
      · rcases hfp : findPlayer players c.player_id with _ | p
        · unfold validateAccess
          simp only [hp, hv, if_neg hexp, hfp]
          refine ⟨?_, ?_, ?_, ?_, ?_⟩ <;> simp [hp, hv, hfp] <;> omega
        · by_cases hsva : c.issued_at < p.session_valid_after
          · unfold validateAccess
            simp only [hp, hv, if_neg hexp, hfp, if_pos hsva]
            refine ⟨?_, ?_, ?_, ?_, ?_⟩ <;> simp [hp, hv, hfp] <;> omega
          · unfold validateAccess
            simp only [hp, hv, if_neg hexp, hfp, if_neg hsva]
            refine ⟨?_, ?_, ?_, ?_, ?_⟩ <;> simp [hp, hv, hfp] <;> omega

/-! ## SessionAuthenticator: refresh rotation (claim C3) -/

/-- C3: refresh is single-use — when a refresh call with a given cookie
succeeds, the used token has been deleted and replaced by a freshly
named one, so a second use of the very same cookie against the rotated
ledger fails with `BadCookieCredentials` and receives no token,
whatever time, player table or fresh names the second call runs
with. -/
theorem refresh_single_use (hasher : Hasher) (players players₂ : List Player)
    (l : List RefreshToken) (now now₂ : Nat)
    (newId newSecret newId₂ newSecret₂ : String)
    (cv id sec : String) (r : RefreshSuccess)
    (hcv : parseCookie cv = some (id, sec))
    (hfresh : newId ≠ id)
    (h : refresh hasher players l now newId newSecret (some cv) = .ok r) :
    refresh hasher players₂ r.ledger now₂ newId₂ newSecret₂ (some cv) =
      .error .BadCookieCredentials := by
  unfold refresh at h
  simp only [hcv] at h
  rcases hft : findRefreshToken l id with _ | t
  · simp [hft] at h
  · simp only [hft] at h
    have hid : t.token_id = id := by
      have := List.find?_some hft
      simpa using this
    split_ifs at h with h1 h2 h3
    rcases hfp : findPlayer players t.player_id with _ | p
    · simp [hfp] at h
    · simp only [hfp, Except.ok.injEq] at h
      subst h
      have hnone :
          findRefreshToken
            ({ token_id := newId, player_id := t.player_id, secret := hasher.hash newSecret,
               created := now, revoked := false } :: removeToken t.token_id l) id = none := by
        unfold findRefreshToken removeToken
        rw [List.find?_eq_none]
        intro u hu
        rcases List.mem_cons.mp hu with rfl | humem
        · simpa using hfresh
        · have := (List.mem_filter.mp humem).2
          rw [hid] at this
          simpa using this
      unfold refresh
      simp only [hcv, hnone]

/-- Witness for `refresh_single_use`: rotating the single demo token
with cookie `t1:s1` succeeds; presenting the same cookie against the
rotated ledger fails with `BadCookieCredentials`. -/
theorem refresh_single_use_witness :
    refresh plainHasher [basePlayer]
      (RefreshSuccess.ledger
        { access := { player_id := "p1", issued_at := 1 }, cookie_id := "t2",
          cookie_secret := "s2",
          ledger := [{ token_id := "t2", player_id := "p1", secret := "s2",
                       created := 1, revoked := false }] })
      2 "t4" "s4" (some "t1:s1") = .error .BadCookieCredentials :=
  refresh_single_use plainHasher [basePlayer] [basePlayer] demoLedger 1 2
    "t2" "s2" "t4" "s4" "t1:s1" "t1" "s1"
    { access := { player_id := "p1", issued_at := 1 }, cookie_id := "t2",
      cookie_secret := "s2",
      ledger := [{ token_id := "t2", player_id := "p1", secret := "s2",
                   created := 1, revoked := false }] }
    (by decide) (by decide) rfl

/-! ## CredentialChangeManager: password change (claim C4) -/

/-- C4 as frozen is false on the model: a player whose stored history
is empty accepts a genuinely new password, and the history afterwards
holds 1 entry, not exactly 4 — the history only reaches 4 once enough
generations exist. -/
theorem changePassword_short_history_counterexample :
    (changePassword plainHasher 7 basePlayer "new").map
        (fun q => q.last_password_digests.length) = .ok 1 ∧ (1 : Nat) ≠ 4 := by
  constructor
  · rfl
  · decide

/-- C4 (amended): `changePassword` rejects exactly when the new
password digest-matches the current digest or any stored history
digest (5-generation uniqueness); on acceptance the old current digest
is pushed to the front of the history, which is truncated to capacity
4 — so it afterwards holds `min (previous + 1) 4` entries,
most-recent-first, exactly 4 whenever the history was already full. -/
theorem changePassword_spec (hasher : Hasher) (now : Nat) (p : Player) (newPassword : String) :
    (changePassword hasher now p newPassword = .error .PasswordReused ↔
        ∃ d ∈ p.password :: p.last_password_digests, hasher.verify newPassword d = true) ∧
    ∀ q, changePassword hasher now p newPassword = .ok q →
      q.password = hasher.hash newPassword ∧
      q.last_password_digests = (p.password :: p.last_password_digests).take 4 ∧
      q.last_password_digests.head? = some p.password ∧
      q.last_password_digests.length = min (p.last_password_digests.length + 1) 4 := by
  constructor
  · unfold changePassword
    by_cases hre :
        ((p.password :: p.last_password_digests).any (fun d => hasher.verify newPassword d)) = true
    · rw [if_pos hre]
      rw [List.any_eq_true] at hre
      exact iff_of_true rfl hre
    · rw [if_neg hre]
      rw [List.any_eq_true] at hre
      exact iff_of_false (by simp) hre
  · intro q hq
    unfold changePassword at hq
    split_ifs at hq with hre
    simp only [Except.ok.injEq] at hq
    subst hq
    refine ⟨rfl, rfl, rfl, ?_⟩
    simp only [List.length_take, List.length_cons]
    omega

/-- Witness for `changePassword_spec`: the full-history demo player is
refused the reuse of `d2`, the third most recent digest. -/
theorem changePassword_spec_witness :
    changePassword plainHasher 3 historyPlayer "d2" = .error .PasswordReused :=
  (changePassword_spec plainHasher 3 historyPlayer "d2").1.mpr
    ⟨"d2", by decide, by decide⟩

/-! ## CredentialChangeManager: email confirmation (claims C6, C7) -/

/-- C6 as frozen is false on the model: after a successful
`confirmEmailChange`, a previously issued access token that is
validated after its own 15-minute window fails with `ExpiredToken`,
not `PrematureToken`, because expiry is checked before the
invalidation cutoff. -/
theorem confirmEmailChange_pat_counterexample :
    (confirmEmailChange 1 "c1" pendingStore).isOk = true ∧
    validateAccess demoVerify
        ((confirmEmailChange 1 "c1" pendingStore).toOption.getD pendingStore).players
        1000 (some "Bearer tok0") = .error .ExpiredToken ∧
    AuthFailure.ExpiredToken ≠ AuthFailure.PrematureToken := by
  refine ⟨rfl, rfl, by decide⟩

/-- C6 (amended): when the confirmation token exists, is unexpired and
names a player with a pending `proposed_email`, `confirmEmailChange`
succeeds; afterwards the player's email is the proposed one,
`proposed_email` is cleared, the confirmation token is deleted, the
player's `session_valid_after` is bumped to now, every refresh token
of the player is revoked, and any access token issued before the
confirmation instant subsequently fails validation at every later
check time — with `PrematureToken` whenever it is still within its
own 15-minute expiry window, and with `ExpiredToken` otherwise. -/
theorem confirmEmailChange_spec (now : Nat) (tokenId : String) (s : Store)
    (ct : ConfirmationToken) (p : Player) (e : String)
    (hct : s.confirmationTokens.find? (fun t => t.token_id = tokenId) = some ct)
    (hunexp : now < ct.created + confirmationTokenLifetimeMinutes)
    (hp : findPlayer s.players ct.player_id = some p)
    (he : p.proposed_email = some e) :
    ∃ s₂, confirmEmailChange now tokenId s = .ok s₂ ∧
      findPlayer s₂.players ct.player_id =
        some { p with email := e, proposed_email := none, session_valid_after := now } ∧
      s₂.confirmationTokens.find? (fun t => t.token_id = tokenId) = none ∧
      (∀ u ∈ s₂.refreshTokens, u.player_id = ct.player_id → u.revoked = true) ∧
      (∀ (verify : String → Option AccessClaims) (header : Option String)
          (tok : String) (c : AccessClaims) (now₂ : Nat),
        parseBearer header = some tok → verify tok = some c →
        c.player_id = ct.player_id → c.issued_at < now →
        (now₂ < c.issued_at + accessTokenLifetimeMinutes →
          validateAccess verify s₂.players now₂ header = .error .PrematureToken) ∧
        (c.issued_at + accessTokenLifetimeMinutes ≤ now₂ →
          validateAccess verify s₂.players now₂ header = .error .ExpiredToken)) := by
  have hpid : p.player_id = ct.player_id := by
    have := List.find?_some hp
    simpa using this
  have hfound : ∀ pid₂, pid₂ = ct.player_id →
      findPlayer (s.players.map (fun q =>
          if q.player_id = ct.player_id then
            { q with email := e, proposed_email := none, session_valid_after := now }
          else q)) pid₂ =
        some { p with email := e, proposed_email := none, session_valid_after := now } := by
    intro pid₂ hp₂
    subst hp₂
    rw [findPlayer_map_update s.players ct.player_id ct.player_id
          (fun q => { q with email := e, proposed_email := none, session_valid_after := now })
          (fun q => rfl), hp]
    simp [hpid]
  refine ⟨{ players := s.players.map (fun q =>
              if q.player_id = ct.player_id then
                { q with email := e, proposed_email := none, session_valid_after := now }
              else q),
            confirmationTokens :=
              s.confirmationTokens.filter (fun u => decide (u.token_id ≠ tokenId)),
            refreshTokens := revokePlayerTokens ct.player_id s.refreshTokens,
            undoTokens := s.undoTokens }, ?_, ?_, ?_, ?_, ?_⟩
  · unfold confirmEmailChange
    simp only [hct]
    rw [if_neg (by omega)]
    simp only [hp, he]
  · exact hfound ct.player_id rfl
  · rw [List.find?_eq_none]
    intro u hu
    have := (List.mem_filter.mp hu).2
    simpa using this
  · intro u hu hupid
    unfold revokePlayerTokens at hu
    rcases List.mem_map.mp hu with ⟨v, hv, rfl⟩
    by_cases hvp : v.player_id = ct.player_id
    · simp [hvp]
    · rw [if_neg hvp] at hupid ⊢
      exact absurd hupid hvp
  · intro verify header tok c now₂ hparse hver hcid hissued
    constructor
    · intro hun₂
      unfold validateAccess
      simp only [hparse, hver]
      rw [if_neg (by omega)]
      rw [hfound c.player_id hcid]
      simp [hissued]
    · intro hexp₂
      unfold validateAccess
      simp only [hparse, hver]
      rw [if_pos hexp₂]

/-- Witness for `confirmEmailChange_spec`: confirming the pending
change of the demo store at minute 1. -/
theorem confirmEmailChange_spec_witness :
    ∃ s₂, confirmEmailChange 1 "c1" pendingStore = .ok s₂ ∧
      findPlayer s₂.players "p1" = some confirmedPlayer ∧
      s₂.confirmationTokens.find? (fun t => t.token_id = "c1") = none ∧
      (∀ u ∈ s₂.refreshTokens, u.player_id = "p1" → u.revoked = true) ∧
      (∀ (verify : String → Option AccessClaims) (header : Option String)
          (tok : String) (c : AccessClaims) (now₂ : Nat),
        parseBearer header = some tok → verify tok = some c →
        c.player_id = "p1" → c.issued_at < 1 →
        (now₂ < c.issued_at + accessTokenLifetimeMinutes →
          validateAccess verify s₂.players now₂ header = .error .PrematureToken) ∧
        (c.issued_at + accessTokenLifetimeMinutes ≤ now₂ →
          validateAccess verify s₂.players now₂ header = .error .ExpiredToken)) :=
  confirmEmailChange_spec 1 "c1" pendingStore
    { token_id := "c1", player_id := "p1", created := 0 } pendingPlayer "b@x"
    rfl (by decide) rfl rfl

/-- C7: once `confirmEmailChange` has fired for a pending change, a
later `undoEmailChange` with the player's email undo token fails with
a conflict — not success — and the confirmed email stays in place: the
Pending state was exited exactly once, by the confirmation. -/
theorem undo_after_confirm_conflict (now now₂ : Nat) (tokenId uid : String)
    (s s₂ : Store) (ct : ConfirmationToken) (u : UndoToken) (p : Player) (e : String)
    (hct : s.confirmationTokens.find? (fun t => t.token_id = tokenId) = some ct)
    (hp : findPlayer s.players ct.player_id = some p)
    (he : p.proposed_email = some e)
    (hconf : confirmEmailChange now tokenId s = .ok s₂)
    (hu : s₂.undoTokens.find? (fun t => t.token_id = uid) = some u)
    (hupid : u.player_id = ct.player_id) (hkind : u.kind = .email) :
    undoEmailChange now₂ uid s₂ = .error .Conflict ∧
    findPlayer s₂.players ct.player_id =
      some { p with email := e, proposed_email := none, session_valid_after := now } := by
  have hpid : p.player_id = ct.player_id := by
    have := List.find?_some hp
    simpa using this
  unfold confirmEmailChange at hconf
  simp only [hct, hp, he] at hconf
  split_ifs at hconf
  simp only [Except.ok.injEq] at hconf
  subst hconf
  have hfound :
      findPlayer (s.players.map (fun q =>
          if q.player_id = ct.player_id then
            { q with email := e, proposed_email := none, session_valid_after := now }
          else q)) ct.player_id =
        some { p with email := e, proposed_email := none, session_valid_after := now } := by
    rw [findPlayer_map_update s.players ct.player_id ct.player_id
          (fun q => { q with email := e, proposed_email := none, session_valid_after := now })
          (fun q => rfl), hp]
    simp [hpid]
  have hu₂ : s.undoTokens.find? (fun t => t.token_id = uid) = some u := hu
  refine ⟨?_, hfound⟩
  unfold undoEmailChange
  simp only [hu₂]
  rw [if_neg (by simp [hkind])]
  rw [hupid, hfound]

/-- Witness for `undo_after_confirm_conflict`: after confirming the
demo store's pending change at minute 1, the email undo token `u1`
gets a conflict at minute 5. -/
theorem undo_after_confirm_conflict_witness :
    undoEmailChange 5 "u1" confirmedStore = .error .Conflict ∧
    findPlayer confirmedStore.players "p1" = some confirmedPlayer :=
  undo_after_confirm_conflict 1 5 "c1" "u1" pendingStore confirmedStore
    { token_id := "c1", player_id := "p1", created := 0 }
    { token_id := "u1", player_id := "p1", kind := .email, created := 0 }
    pendingPlayer "b@x" rfl rfl rfl rfl rfl rfl rfl

/-! ## RefreshTokenLedger: live-token bound and eviction (claim C5) -/

lemma mem_liveTokens {now : Nat} {l : List RefreshToken} {pid : String} {t : RefreshToken} :
    t ∈ liveTokens now l pid ↔
      t ∈ l ∧ (t.player_id = pid ∧ t.revoked = false ∧
        now < t.created + refreshTokenLifetimeMinutes) := by
  simp [liveTokens, List.mem_filter]

lemma liveTokens_length_mono_time {now now₂ : Nat} (h : now ≤ now₂)
    (l : List RefreshToken) (pid : String) :
    (liveTokens now₂ l pid).length ≤ (liveTokens now l pid).length := by
  apply List.Sublist.length_le
  apply List.monotone_filter_right
  intro a ha
  simp only [decide_eq_true_eq] at ha ⊢
  exact ⟨ha.1, ha.2.1, by omega⟩

lemma liveBound_mono {now now₂ : Nat} {l : List RefreshToken} (h : now ≤ now₂)
    (hb : LiveBound now l) : LiveBound now₂ l :=
  fun pid => le_trans (liveTokens_length_mono_time h l pid) (hb pid)

lemma liveTokens_filter (now : Nat) (q : RefreshToken → Bool) (l : List RefreshToken)
    (pid : String) :
    liveTokens now (l.filter q) pid = (liveTokens now l pid).filter q := by
  unfold liveTokens
  rw [List.filter_filter, List.filter_filter]
  congr 1
  funext a
  exact Bool.and_comm _ _

lemma length_filter_lt_of_mem {α : Type} (L : List α) (q : α → Bool) (t : α)
    (ht : t ∈ L) (hq : q t = false) :
    (L.filter q).length < L.length := by
  induction L with
  | nil => cases ht
  | cons x xs ih =>
      rw [List.filter_cons]
      rcases List.mem_cons.mp ht with rfl | hmem
      · rw [if_neg (by simp [hq])]
        have := List.length_filter_le q xs
        simp only [List.length_cons]
        omega
      · by_cases hx : q x = true
        · rw [if_pos hx]
          have := ih hmem
          simp only [List.length_cons]
          omega
        · rw [if_neg (by simp [hx])]
          have := ih hmem
          simp only [List.length_cons]
          omega

lemma foldl_min_created (ts : List RefreshToken) (a : RefreshToken) :
    ts.foldl (fun b u => if u.created < b.created then u else b) a ∈ a :: ts ∧
    ∀ u ∈ a :: ts,
      (ts.foldl (fun b u => if u.created < b.created then u else b) a).created ≤ u.created := by
  induction ts generalizing a with
  | nil => simp
  | cons x xs ih =>
      rw [List.foldl_cons]
      obtain ⟨hmem, hle⟩ := ih (if x.created < a.created then x else a)
      constructor
      · rcases List.mem_cons.mp hmem with heq | hmem2
        · rw [heq]
          split
          · exact List.mem_cons_of_mem _ (List.mem_cons_self _ _)
          · exact List.mem_cons_self _ _
        · exact List.mem_cons_of_mem _ (List.mem_cons_of_mem _ hmem2)
      · intro u hu
        have hbase := hle _ (List.mem_cons_self _ _)
        rcases List.mem_cons.mp hu with rfl | hu2
        · exact le_trans hbase (by split <;> omega)
        · rcases List.mem_cons.mp hu2 with rfl | hu3
          · exact le_trans hbase (by split <;> omega)
          · exact hle u (List.mem_cons_of_mem _ hu3)

lemma oldestLive_spec {now : Nat} {l : List RefreshToken} {pid : String} {t : RefreshToken}
    (h : oldestLive now l pid = some t) :
    t ∈ liveTokens now l pid ∧ ∀ u ∈ liveTokens now l pid, t.created ≤ u.created := by
  unfold oldestLive at h
  rcases hL : liveTokens now l pid with _ | ⟨x, xs⟩ <;> rw [hL] at h
  · cases h
  · simp only [Option.some.injEq] at h
    subst h
    exact foldl_min_created xs x

lemma oldestLive_none {now : Nat} {l : List RefreshToken} {pid : String}
    (h : oldestLive now l pid = none) : liveTokens now l pid = [] := by
  unfold oldestLive at h
  rcases hL : liveTokens now l pid with _ | ⟨x, xs⟩
  · rfl
  · rw [hL] at h
    cases h

lemma liveTokens_cons (now : Nat) (x : RefreshToken) (l : List RefreshToken) (pid : String) :
    liveTokens now (x :: l) pid =
      if x.player_id = pid ∧ x.revoked = false ∧ now < x.created + refreshTokenLifetimeMinutes
      then x :: liveTokens now l pid else liveTokens now l pid := by
  by_cases h : x.player_id = pid ∧ x.revoked = false ∧
      now < x.created + refreshTokenLifetimeMinutes <;>
    simp [liveTokens, List.filter_cons, h]

lemma issueRefresh_live_bound (now : Nat) (pid id sd : String) (l : List RefreshToken)
    (pid₂ : String) (h : (liveTokens now l pid₂).length ≤ 3) :
    (liveTokens now (issueRefresh now pid id sd l) pid₂).length ≤ 3 := by
  unfold issueRefresh
  rcases ho : oldestLive now l pid with _ | t
  · rw [liveTokens_cons]
    split_ifs with hc
    · have hp2 : pid = pid₂ := hc.1
      subst hp2
      rw [List.length_cons, oldestLive_none ho]
      simp
    · exact h
  · split_ifs with h3
    · obtain ⟨htl, hmin⟩ := oldestLive_spec ho
      rw [liveTokens_cons]
      split_ifs with hc
      · have hp2 : pid = pid₂ := hc.1
        subst hp2
        rw [List.length_cons]
        have hrem : liveTokens now (removeToken t.token_id l) pid =
            (liveTokens now l pid).filter (fun u => decide (u.token_id ≠ t.token_id)) :=
          liveTokens_filter now _ l pid
        rw [hrem]
        have hlt := length_filter_lt_of_mem (liveTokens now l pid)
            (fun u => decide (u.token_id ≠ t.token_id)) t htl (by simp)
        omega
      · have hrem : liveTokens now (removeToken t.token_id l) pid₂ =
            (liveTokens now l pid₂).filter (fun u => decide (u.token_id ≠ t.token_id)) :=
          liveTokens_filter now _ l pid₂
        rw [hrem]
        have := List.length_filter_le (fun u => decide (u.token_id ≠ t.token_id))
            (liveTokens now l pid₂)
        omega
    · rw [liveTokens_cons]
      split_ifs with hc
      · have hp2 : pid = pid₂ := hc.1
        subst hp2
        rw [List.length_cons]
        omega
      · exact h

lemma liveTokens_length_map_revoke (g : RefreshToken → RefreshToken)
    (hg : ∀ t, g t = t ∨ g t = { t with revoked := true })
    (now : Nat) (l : List RefreshToken) (pid : String) :
    (liveTokens now (l.map g) pid).length ≤ (liveTokens now l pid).length := by
  induction l with
  | nil => simp
  | cons x xs ih =>
      rw [List.map_cons, liveTokens_cons, liveTokens_cons]
      rcases hg x with hx | hx
      · rw [hx]
        split_ifs with hc
        · simpa using ih
        · exact ih
      · rw [hx]
        have hnot : ¬(({ x with revoked := true } : RefreshToken).player_id = pid ∧
            ({ x with revoked := true } : RefreshToken).revoked = false ∧
            now < ({ x with revoked := true } : RefreshToken).created +
              refreshTokenLifetimeMinutes) := by simp
        rw [if_neg hnot]
        split_ifs with hc
        · rw [List.length_cons]
          omega
        · exact ih

lemma revokeToken_live_bound (id : String) (now : Nat) (l : List RefreshToken)
    (pid : String) :
    (liveTokens now (revokeToken id l) pid).length ≤ (liveTokens now l pid).length :=
  liveTokens_length_map_revoke _
    (fun t => by by_cases h : t.token_id = id <;> simp [h]) now l pid

lemma revokePlayerTokens_live_bound (pid₀ : String) (now : Nat) (l : List RefreshToken)
    (pid : String) :
    (liveTokens now (revokePlayerTokens pid₀ l) pid).length ≤ (liveTokens now l pid).length :=
  liveTokens_length_map_revoke _
    (fun t => by by_cases h : t.player_id = pid₀ <;> simp [h]) now l pid

lemma rotateRefresh_live_bound (now : Nat) (oldId newId sd : String) (l : List RefreshToken)
    (pid₂ : String) (h : (liveTokens now l pid₂).length ≤ 3) :
    (liveTokens now (rotateRefresh now oldId newId sd l) pid₂).length ≤ 3 := by
  unfold rotateRefresh
  rcases hft : findRefreshToken l oldId with _ | t
  · exact h
  · dsimp only
    split_ifs with hc
    · have htmem : t ∈ l := List.mem_of_find?_eq_some hft
      have htlive : t ∈ liveTokens now l t.player_id :=
        mem_liveTokens.mpr ⟨htmem, rfl, hc.1, hc.2⟩
      rw [liveTokens_cons]
      split_ifs with hc2
      · have hp2 : t.player_id = pid₂ := hc2.1
        subst hp2
        rw [List.length_cons]
        have hrem : liveTokens now (removeToken t.token_id l) t.player_id =
            (liveTokens now l t.player_id).filter
              (fun u => decide (u.token_id ≠ t.token_id)) :=
          liveTokens_filter now _ l t.player_id
        rw [hrem]
        have hlt := length_filter_lt_of_mem (liveTokens now l t.player_id)
            (fun u => decide (u.token_id ≠ t.token_id)) t htlive (by simp)
        omega
      · have hrem : liveTokens now (removeToken t.token_id l) pid₂ =
            (liveTokens now l pid₂).filter (fun u => decide (u.token_id ≠ t.token_id)) :=
          liveTokens_filter now _ l pid₂
        rw [hrem]
        have := List.length_filter_le (fun u => decide (u.token_id ≠ t.token_id))
            (liveTokens now l pid₂)
        omega
    · exact h

lemma applyOp_liveBound (now : Nat) (op : LedgerOp) (l : List RefreshToken)
    (h : LiveBound now l) : LiveBound now (applyOp now op l) := by
  intro pid₂
  cases op with
  | issue pid id sd => exact issueRefresh_live_bound now pid id sd l pid₂ (h pid₂)
  | revoke id => exact le_trans (revokeToken_live_bound id now l pid₂) (h pid₂)
  | revokeAll pid => exact le_trans (revokePlayerTokens_live_bound pid now l pid₂) (h pid₂)
  | rotate oldId newId sd => exact rotateRefresh_live_bound now oldId newId sd l pid₂ (h pid₂)

lemma chain_le_of_append {t0 : Nat} {xs ys : List Nat}
    (h : List.Chain (fun a b => a ≤ b) t0 (xs ++ ys)) :
    List.Chain (fun a b => a ≤ b) t0 xs := by
  induction xs generalizing t0 with
  | nil => exact List.Chain.nil
  | cons x xs ih =>
      rw [List.cons_append, List.chain_cons] at h
      exact List.chain_cons.mpr ⟨h.1, ih h.2⟩

lemma applyOps_liveBound (ops : List (Nat × LedgerOp)) (t0 : Nat) (l : List RefreshToken)
    (hchain : List.Chain (fun a b => a ≤ b) t0 (ops.map Prod.fst))
    (hinv : LiveBound t0 l) :
    LiveBound (lastTime t0 ops) (applyOps ops l) := by
  induction ops generalizing t0 l with
  | nil => exact hinv
  | cons o os ih =>
      rw [List.map_cons, List.chain_cons] at hchain
      have h1 : LiveBound o.1 l := liveBound_mono hchain.1 hinv
      have h2 : LiveBound o.1 (applyOp o.1 o.2 l) := applyOp_liveBound o.1 o.2 l h1
      exact ih o.1 (applyOp o.1 o.2 l) hchain.2 h2

/-- C5: along every timed sequence of ledger operations run on a
monotone clock from a state satisfying the bound, every player has at
most 3 live refresh tokens after every prefix; and whenever a player
already has exactly 3 live tokens, issuing a 4th evicts the oldest
live one — the issued ledger is the new token consed onto the ledger
with the oldest live token's document removed. -/
theorem refreshLedger_live_bound_and_eviction
    (ops : List (Nat × LedgerOp)) (t0 : Nat) (l0 : List RefreshToken)
    (hchain : List.Chain (fun a b => a ≤ b) t0 (ops.map Prod.fst))
    (hinv : LiveBound t0 l0)
    (now : Nat) (l : List RefreshToken) (pid id sd : String) (t : RefreshToken)
    (hcount : (liveTokens now l pid).length = 3)
    (hold : oldestLive now l pid = some t) :
    (∀ pre suf, ops = pre ++ suf → LiveBound (lastTime t0 pre) (applyOps pre l0)) ∧
    t ∈ liveTokens now l pid ∧
    (∀ u ∈ liveTokens now l pid, t.created ≤ u.created) ∧
    issueRefresh now pid id sd l =
      { token_id := id, player_id := pid, secret := sd, created := now, revoked := false }
        :: removeToken t.token_id l := by
  obtain ⟨htl, hmin⟩ := oldestLive_spec hold
  refine ⟨?_, htl, hmin, ?_⟩
  · intro pre suf hps
    subst hps
    rw [List.map_append] at hchain
    exact applyOps_liveBound pre t0 l0 (chain_le_of_append hchain) hinv
  · unfold issueRefresh
    simp only [hold]
    rw [if_pos (by omega)]

/-- Witness for `refreshLedger_live_bound_and_eviction`: four
issuances for player `p` at minutes 0-3 keep the bound, and issuing a
4th token into the full demo ledger at minute 3 evicts the oldest
token `a`. -/
theorem refreshLedger_live_bound_and_eviction_witness :
    LiveBound (lastTime 0 demoOps) (applyOps demoOps []) ∧
    issueRefresh 3 "p" "d" "x" fullLedger =
      { token_id := "d", player_id := "p", secret := "x", created := 3, revoked := false }
        :: removeToken "a" fullLedger := by
  have h := refreshLedger_live_bound_and_eviction demoOps 0 []
      (by simp [demoOps, List.chain_cons])
      (by intro pid; simp [liveTokens]) 3 fullLedger "p" "d" "x"
      { token_id := "a", player_id := "p", secret := "x", created := 0, revoked := false }
      (by decide) (by decide)
  exact ⟨h.1 demoOps [] (by simp), h.2.2.2⟩

/-! ## Frontend (claims C9, C10) -/

/-- C9 as frozen is false on the code: the session state binding
`token` to the empty string has the `token` entry present, yet
`authLoader` throws the redirect to `/welcome` instead of returning the
`AccountInfo` record, because the empty string is falsy in JavaScript. -/
theorem authLoader_emptyToken_redirects :
    getItem [("token", "")] "token" = some "" ∧
    authLoader [("token", "")] = .redirectTo "/welcome" := by
  constructor <;> rfl

/-- C9 (amended): `authLoader` throws the redirect to `/welcome`
exactly when the `token` entry is absent or empty; for any two session
states whose `token` entry is present and non-empty, it returns the
identical fixed `AccountInfo` record — the token's value never
influences the result, and no backend request is modelled because the
code performs none. -/
theorem authLoader_spec (s s₁ s₂ : SessionState) (t₁ t₂ : String)
    (h₁ : getItem s₁ "token" = some t₁) (hne₁ : t₁ ≠ "")
    (h₂ : getItem s₂ "token" = some t₂) (hne₂ : t₂ ≠ "") :
    (authLoader s = .redirectTo "/welcome" ↔
      (getItem s "token" = none ∨ getItem s "token" = some "")) ∧
    authLoader s₁ = authLoader s₂ ∧
    authLoader s₁ =
      .account { username := "test_user", user_id := "123", display_name := "test user" } := by
  refine ⟨?_, ?_, ?_⟩
  · unfold authLoader
    cases h : getItem s "token" with
    | none => simp
    | some t =>
        by_cases ht : t = "" <;> simp [ht]
  · unfold authLoader
    rw [h₁, h₂]
    simp [hne₁, hne₂]
  · unfold authLoader
    rw [h₁]
    simp [hne₁]

/-- Witness for `authLoader_spec` at concrete session states. -/
theorem authLoader_spec_witness :
    (authLoader [("token", "abc")] = .redirectTo "/welcome" ↔
      (getItem [("token", "abc")] "token" = none ∨
        getItem [("token", "abc")] "token" = some "")) ∧
    authLoader [("token", "abc")] = authLoader [("token", "xyz"), ("k", "v")] ∧
    authLoader [("token", "abc")] =
      .account { username := "test_user", user_id := "123", display_name := "test user" } :=
  authLoader_spec [("token", "abc")] [("token", "abc")] [("token", "xyz"), ("k", "v")]
    "abc" "xyz" (by decide) (by decide) (by decide) (by decide)

/-- C10: clicking the Log in button on `WelcomePage` stores the
literal string `123` under the `token` key of session storage and
navigates to `/`, for every prior page state — the handler reads no
identifier or password, so the outcome is the same regardless of them. -/
theorem welcomeLoginClick_spec (st : NavState) :
    getItem (welcomeLoginClick st).session "token" = some "123" ∧
    (welcomeLoginClick st).route = "/" := by
  constructor
  · rfl
  · rfl

end DBo
